import Mathlib

/-!
Verification development for the LUW-Shell repository.

Shallow embedding of the dispatch/composition engine (`modules/dispatch.py`),
the worker loop (`modules/workerthread.py`), the relevant command functions
(`modules/commands.py`), and the binary container codec (`app.py`).

Conventions:
* Python strings are Lean `String`s, byte strings are `List Nat` (each < 256).
* Python dicts with string keys/values are association lists (`Args`); updates
  replace the existing binding in place, matching CPython dict semantics.
* Code that can raise an exception that its Python caller does not catch is
  embedded in `Except String`; a `try/except` block around a sub-computation
  becomes a `match` on its `Except` result.
* Process-global mutable state (`os.environ`, the working directory, the alias
  table, the logger's debug-suppression flag) is threaded as a `Session` value.
* External collaborators (filesystem, subprocesses, URL fetches) are a `World`
  record of abstract operations; the gzip and JSON codecs of the container
  format are abstract parameters constrained by round-trip hypotheses.
-/

namespace LUW

/-! ### Small character/string helpers (Python string primitives) -/

/-- The single-quote character. -/
def sq : Char := Char.ofNat 39

/-- The opening brace character. -/
def obrace : Char := Char.ofNat 123

/-- The closing brace character. -/
def cbrace : Char := Char.ofNat 125

/-- Python `str.strip()` (no arguments): drop leading and trailing whitespace. -/
def pyStrip (s : String) : String :=
  String.mk (((s.data.dropWhile Char.isWhitespace).reverse.dropWhile Char.isWhitespace).reverse)

/-- Python `str.lower()` (ASCII range suffices for the inputs used here). -/
def pyLower (s : String) : String :=
  String.mk (s.data.map Char.toLower)

/-- Python `str.upper()` (ASCII range suffices for the inputs used here). -/
def pyUpper (s : String) : String :=
  String.mk (s.data.map Char.toUpper)

/-- Python `s[::-1]`: reverse the string code-point-wise. -/
def pyReverse (s : String) : String :=
  String.mk s.data.reverse

/-- Python `s[n:]`: drop the first `n` characters. -/
def strDrop (s : String) (n : Nat) : String :=
  String.mk (s.data.drop n)

/-- Python `pre in s` substring test. -/
def strContains (s pre : String) : Bool :=
  s.data.tails.any (fun t => pre.data.isPrefixOf t)

/-- Python `s.startswith(pre)`. -/
def pyStartsWith (s pre : String) : Bool :=
  pre.data.isPrefixOf s.data

/-- Python `s.lstrip("-")`. -/
def lstripDash (s : String) : String :=
  String.mk (s.data.dropWhile (fun c => c = '-'))

/-- Python `" ".join(l)`. -/
def joinSpace (l : List String) : String :=
  String.intercalate " " l

/-- Python `s.split(sep)` for a one-character separator: keeps empty pieces. -/
def splitOnCharAux (sep : Char) : List Char → List Char → List String
  | cur, [] => [String.mk cur.reverse]
  | cur, c :: cs =>
    if c = sep then String.mk cur.reverse :: splitOnCharAux sep [] cs
    else splitOnCharAux sep (c :: cur) cs

/-- Python `s.split(sep)` for a one-character separator. -/
def splitOnChar (sep : Char) (s : String) : List String :=
  splitOnCharAux sep [] s.data

/-- Python `s.split("=", 1)` when `"=" in s`: split at the first `=`. -/
def splitEqOnce (s : String) : String × String :=
  match splitOnChar '=' s with
  | [] => (s, "")
  | x :: rest => (x, String.intercalate "=" rest)

/-- Python `s.split()` (no arguments): split on whitespace runs, no empties. -/
def naiveSplit (s : String) : List String :=
  (splitOnCharAux ' ' [] (s.data.map (fun c => if c.isWhitespace then ' ' else c))).filter
    (fun t => t ≠ "")

/-- Python `str.strip(chars)` for the quote characters, as used by the
`alias` builtin (`rest.strip("'\"")`). -/
def stripQuoteChars (s : String) : String :=
  let p : Char → Bool := fun c => c = sq ∨ c = '"'
  String.mk (((s.data.dropWhile p).reverse.dropWhile p).reverse)

/-! ### Dict (string → string) operations -/

/-- Argument mappings: Python `dict[str, str]` as an association list. -/
abbrev Args := List (String × String)

/-- Python `d.get(k)`. -/
def dictGet (a : Args) (k : String) : Option String :=
  (a.find? (fun p => p.1 = k)).map (·.2)

/-- Python `d.get(k, dflt)`. -/
def dictGetD (a : Args) (k : String) (dflt : String) : String :=
  (dictGet a k).getD dflt

/-- Python `d[k] = v`: replace the binding in place (CPython keeps the key position),
append if absent. -/
def dictSet : Args → String → String → Args
  | [], k, v => [(k, v)]
  | (k', v') :: rest, k, v =>
    if k' = k then (k, v) :: rest else (k', v') :: dictSet rest k v

/-- Python `d.pop(k, None)`: remove the binding for `k` if present. -/
def dictPop (a : Args) (k : String) : Args :=
  a.filter (fun p => p.1 ≠ k)

/-- Python truthiness coercion for `d.get(k) or ...` chains: a missing key and
an empty string are both falsy. -/
def truthyOpt : Option String → Option String
  | some s => if s = "" then none else some s
  | none => none

/-! ### The `shlex.split` tokenizer

`dispatch.py` tokenizes with `shlex.split` and falls back to a naive
whitespace split when it raises (malformed quoting).  `shlex` is standard
library code, not part of this repository; it is modelled here in POSIX mode:
whitespace separates tokens, single quotes protect everything up to the next
single quote, double quotes protect everything except `\"` and `\\`, a
backslash escapes the next character, and an unterminated quote or trailing
backslash raises (`none`). -/

inductive ShxMode | plain | single | double
deriving DecidableEq

def shxRun : ShxMode → List Char → Bool → List Char → Option (List String)
  | .plain, cur, started, [] =>
    some (if started then [String.mk cur.reverse] else [])
  | .plain, cur, started, c :: cs =>
    if c = sq then shxRun .single cur true cs
    else if c = '"' then shxRun .double cur true cs
    else if c = '\\' then
      match cs with
      | [] => none
      | d :: ds => shxRun .plain (d :: cur) true ds
    else if c.isWhitespace then
      if started then (shxRun .plain [] false cs).map (fun ts => String.mk cur.reverse :: ts)
      else shxRun .plain [] false cs
    else shxRun .plain (c :: cur) true cs
  | .single, _, _, [] => none
  | .single, cur, _, c :: cs =>
    if c = sq then shxRun .plain cur true cs
    else shxRun .single (c :: cur) true cs
  | .double, _, _, [] => none
  | .double, cur, _, c :: cs =>
    if c = '"' then shxRun .plain cur true cs
    else if c = '\\' then
      match cs with
      | [] => none
      | d :: ds =>
        if d = '"' ∨ d = '\\' then shxRun .double (d :: cur) true ds
        else shxRun .double (d :: '\\' :: cur) true ds
    else shxRun .double (c :: cur) true cs

/-- Python `shlex.split(s)`; `none` models a raised `ValueError`. -/
def shlexSplit (s : String) : Option (List String) :=
  shxRun .plain [] false s.data

/-- The repository's tokenization idiom:
`try: parts = shlex.split(line) except Exception: parts = line.split()`. -/
def splitTokens (s : String) : List String :=
  (shlexSplit s).getD (naiveSplit s)

/-! ### Environment-variable expansion (`dispatch._expand_env_in_str`)

The Python code substitutes the regex
`\$env:([A-Za-z_]\w*)|\${([A-Za-z_]\w*)}|\$([A-Za-z_]\w*)` with
`os.environ.get(name, "")`.  The scanner below tries the three alternatives in
order at every `$`, exactly as `re.sub` does. -/

def isIdentStart (c : Char) : Bool := c.isAlpha ∨ c = '_'

def isIdentChar (c : Char) : Bool := c.isAlphanum ∨ c = '_'

/-- Greedily read an identifier `[A-Za-z_]\w*`. -/
def takeIdent : List Char → Option (String × List Char)
  | [] => none
  | c :: rest =>
    if isIdentStart c then
      let split := rest.span isIdentChar
      some (String.mk (c :: split.1), split.2)
    else none

/-- Alternative 1: `env:NAME` (after the `$`). -/
def matchEnvColon : List Char → Option (String × List Char)
  | 'e' :: 'n' :: 'v' :: ':' :: r => takeIdent r
  | _ => none

/-- Alternative 2: `{NAME}` (after the `$`). -/
def matchBraced (cs : List Char) : Option (String × List Char) :=
  match cs with
  | c :: r =>
    if c = obrace then
      match takeIdent r with
      | some (n, r2) =>
        match r2 with
        | c2 :: r3 => if c2 = cbrace then some (n, r3) else none
        | [] => none
      | none => none
    else none
  | [] => none

/-- The variable reference found right after a `$`, if any. -/
def matchVar (cs : List Char) : Option (String × List Char) :=
  (matchEnvColon cs).orElse (fun _ => (matchBraced cs).orElse (fun _ => takeIdent cs))

/-- Python `os.environ.get(name, "")` against a session environment. -/
def envGet (env : List (String × String)) (name : String) : String :=
  dictGetD env name ""

/-- Fuel-driven scanner; every step consumes at least one input character, so
fuel equal to the input length is always sufficient. -/
def expandEnvCharsF (env : List (String × String)) : Nat → List Char → List Char
  | 0, cs => cs
  | _ + 1, [] => []
  | f + 1, c :: cs =>
    if c = '$' then
      match matchVar cs with
      | some (n, rest) => (envGet env n).data ++ expandEnvCharsF env f rest
      | none => c :: expandEnvCharsF env f cs
    else c :: expandEnvCharsF env f cs

/-- Embeds `dispatch._expand_env_in_str`. -/
def expandEnvInStr (env : List (String × String)) (s : String) : String :=
  if s = "" then s else String.mk (expandEnvCharsF env s.data.length s.data)

/-- Embeds `dispatch._expand_env_in_args`: expand every (string) value.  In this
embedding all values are strings, so the `isinstance(v, str)` guard is
always taken. -/
def expandEnvInArgs (env : List (String × String)) (args : Args) : Args :=
  args.map (fun kv => (kv.1, expandEnvInStr env kv.2))

/-! ### Token scanning helpers of `dispatch.py` -/

/-- Embeds `dispatch._was_quoted`: the token counts as quoted when `"tok"`, `'tok'`
or `${tok}` occurs literally in the original line (empty line: `False`). -/
def wasQuoted (token : String) (originalText : String) : Bool :=
  if originalText = "" then false
  else
    strContains originalText ("\"" ++ token ++ "\"") ∨
    strContains originalText (String.mk [sq] ++ token ++ String.mk [sq]) ∨
    strContains originalText ("$" ++ String.mk [obrace] ++ token ++ String.mk [cbrace])

/-- Left-to-right scan shared by `_build_args_from_parts`: a `--flag` token
with a successor consumes both as a binding, every other token is positional.
A trailing `--flag` with no successor is positional (the `i + 1 < len(parts)`
guard fails). -/
def argScanAux : Args → List String → List String → Args × List String
  | args, pos, [] => (args, pos)
  | args, pos, [t] => (args, pos ++ [t])
  | args, pos, t :: u :: rest =>
    if pyStartsWith t "--" then argScanAux (dictSet args (lstripDash t) u) pos rest
    else argScanAux args (pos ++ [t]) (u :: rest)

/-- Embeds `dispatch._build_args_from_parts` (the `original_text` argument is unused
by the Python function as well). -/
def buildArgsFromParts (parts : List String) (_originalText : String) : Args :=
  let scanned := argScanAux [] [] (parts.drop 1)
  if scanned.2 ≠ [] ∧ dictGet scanned.1 "str" = none then
    dictSet scanned.1 "str" (joinSpace scanned.2)
  else scanned.1

/-- Positional tokens of `parts.drop 1` paired with their absolute index in
`parts`; the index scan of `_extract_positional` and the `pos_indices` loop of
`_evaluate_composed_chain_if_any` traverse identically, so both are
projections of this single scan. -/
def posPairsAux : Nat → List String → List (Nat × String)
  | _, [] => []
  | i, [t] => [(i, t)]
  | i, t :: u :: rest =>
    if pyStartsWith t "--" then posPairsAux (i + 2) rest
    else (i, t) :: posPairsAux (i + 1) (u :: rest)

def posPairs (parts : List String) : List (Nat × String) :=
  posPairsAux 1 (parts.drop 1)

/-- Embeds `dispatch._extract_positional`. -/
def extractPositional (parts : List String) : List String :=
  (posPairs parts).map Prod.snd

/-- The `pos_indices` list built inside `_evaluate_composed_chain_if_any`. -/
def posIndices (parts : List String) : List Nat :=
  (posPairs parts).map Prod.fst

/-- Embeds `dispatch._consumed_length`. -/
def consumedAux : Nat → List String → Nat
  | i, [] => i
  | i, [_] => i + 1
  | i, t :: u :: rest =>
    if pyStartsWith t "--" then consumedAux (i + 2) rest
    else consumedAux (i + 1) (u :: rest)

def consumedLength (parts : List String) : Nat :=
  consumedAux 1 (parts.drop 1)

/-! ### Registry, session and world -/

/-- One entry of `modules.commands.COMMANDS`: the command function (which may
raise, hence `Except`) and its docstring (`None` when absent). -/
structure CmdEntry where
  fn : Args → Except String String
  doc : Option String

/-- The live command registry (`commands_module.COMMANDS`), a dict. -/
abbrev Registry := List (String × CmdEntry)

def lookupCmd (reg : Registry) (name : String) : Option CmdEntry :=
  (reg.find? (fun p => p.1 = name)).map (·.2)

/-- Process-global mutable state touched by the dispatcher: `os.environ`, the
working directory, `dispatch.ALIASES`, and the logger's debug-suppression
flag. -/
structure Session where
  env : List (String × String)
  cwd : String
  aliases : List (String × String)
  debugSuppressed : Bool
deriving DecidableEq, Repr

/-- External collaborators: filesystem and subprocess operations, abstracted.
`.error` models a raised exception. -/
structure World where
  home : String
  chdir : String → String → Except String String
  listdir : String → Except String (List String)
  readFile : String → Except String String
  fetchUrl : String → Except String String
  runPwsh : String → Except String Int
  runCmdStream : String → Except String Int

/-! ### The two chain-relevant command functions (`modules/commands.py`) -/

/-- Embeds `commands.reverse`: `--file` takes precedence, then `--url`, then the
positional text; every fallible branch catches its own exception and returns
an error text, so the function as a whole never raises. -/
def cmdReverse (w : World) (args : Args) : String :=
  match (truthyOpt (dictGet args "file")).orElse (fun _ => truthyOpt (dictGet args "f")) with
  | some p =>
    match w.readFile p with
    | .ok text => pyReverse text
    | .error e => "reverse failed reading file: " ++ e
  | none =>
    match (truthyOpt (dictGet args "url")).orElse (fun _ => truthyOpt (dictGet args "u")) with
    | some u =>
      match w.fetchUrl u with
      | .ok text => pyReverse text
      | .error e => "reverse failed fetching url: " ++ e
    | none => pyReverse (dictGetD args "str" "")

/-- Embeds `commands.upper`. -/
def cmdUpper (args : Args) : String :=
  pyUpper (dictGetD args "str" "")

/-! ### Builtins (`dispatch._run_builtin`)

Return value: `.ok (session, some out)` = `(True, out)` handled,
`.ok (session, none)` = `(False, None)` not handled, `.error` = a raised
exception.  The only branch that can raise without catching is `help`
(indexing `splitlines()[0]` of a whitespace-only docstring); every mutating
branch catches its own exceptions, so `.error` never carries a mutated
session. -/

/-- Embeds `dispatch.BUILTIN_NAMES`. -/
def BUILTIN_NAMES : List String :=
  ["cd", "pwd", "echo", "print", "ls", "env", "set", "get", "help", "alias", "unalias", "aliases"]

/-- The `BUILTIN_DOCS` table inside `_run_builtin`. -/
def BUILTIN_DOCS : List (String × String) :=
  [("help", "help [command] - Show available commands or details for a command."),
   ("alias", "alias name=" ++ String.mk [sq] ++ "expansion" ++ String.mk [sq] ++ " - Define a session alias."),
   ("unalias", "unalias name - Remove an alias."),
   ("aliases", "aliases - List currently defined aliases."),
   ("cd", "cd <path> - Change directory (supports --mkdir/--create/--p)."),
   ("pwd", "pwd - Print current directory."),
   ("echo", "echo <text> - Print text (expands $env:VAR)."),
   ("print", "print <text> - Same as echo."),
   ("ls", "ls [path] - List directory."),
   ("env", "env - List environment variables."),
   ("set", "set VAR=VALUE - Set environment variable."),
   ("get", "get VAR - Get environment variable."),
   ("lupdate", "lupdate - Update the shell")]

/-- Python `f"{name:15}"`: pad right with spaces to width 15. -/
def padTo15 (s : String) : String :=
  s ++ String.mk (List.replicate (15 - s.length) ' ')

/-- Drop one trailing newline, the way `splitlines` ignores it. -/
def stripTrailingNl (l : List Char) : List Char :=
  match l.reverse with
  | '\n' :: rest => rest.reverse
  | _ => l

/-- Python `splitlines()` restricted to `\n` line breaks (the docstrings in
this repository contain no other line separators); `"".splitlines() == []`. -/
def pySplitlines (s : String) : List String :=
  if s = "" then [] else splitOnChar '\n' (String.mk (stripTrailingNl s.data))

/-- The first docstring line used by `help`'s listing:
`func.__doc__.strip().splitlines()[0]` guarded by `if func and func.__doc__`;
a whitespace-only docstring raises `IndexError`. -/
def docSummary (doc : Option String) : Except String String :=
  match doc with
  | none => .ok ""
  | some d =>
    if d = "" then .ok ""
    else
      match pySplitlines (pyStrip d) with
      | [] => .error "IndexError: list index out of range"
      | s :: _ => .ok s

/-- Sort an association list by key (Python `sorted` over dict keys/items;
keys are unique, so sorting pairs by key matches sorting items). -/
def sortByKey (l : List (String × String)) : List (String × String) :=
  l.mergeSort (fun a b => a.1 ≤ b.1)

def sortKeys (l : List String) : List String :=
  l.mergeSort (fun a b => a ≤ b)

/-- The command listing of `help` with no topic. -/
def helpListing (reg : Registry) : Except String String := do
  let cmdLines ← (sortKeys (reg.map Prod.fst)).mapM (fun name => do
    let summary ← docSummary (((lookupCmd reg name).map (·.doc)).getD none)
    pure (padTo15 name ++ " - " ++ summary))
  let builtinLines := (sortByKey BUILTIN_DOCS).map (fun kv => padTo15 kv.1 ++ " - " ++ kv.2)
  pure (String.intercalate "\n" (cmdLines ++ ["\nBuiltins:"] ++ builtinLines))

/-- The body of the `alias` builtin's `try` block. -/
def aliasBody (sess : Session) (raw : String) : Except String (Session × String) := do
  let nameRest ←
    if strContains raw "=" then
      let nr := splitEqOnce raw
      pure (pyStrip nr.1, stripQuoteChars (pyStrip nr.2))
    else
      match shlexSplit raw with
      | none => .error "ValueError: No closing quotation"
      | some [] => .error "IndexError: list index out of range"
      | some (p :: rest) => pure (p, if rest ≠ [] then joinSpace rest else "")
  if nameRest.1 = "" ∨ nameRest.2 = "" then
    pure (sess, "invalid alias")
  else
    pure ({sess with aliases := dictSet sess.aliases nameRest.1 nameRest.2}, "")

/-- Embeds `dispatch._run_builtin`. -/
def runBuiltin (reg : Registry) (w : World) (sess : Session) (command : String) (args : Args) :
    Except String (Session × Option String) :=
  if command = "help" then
    let topic := pyStrip (dictGetD args "str" "")
    if topic = "" then
      match helpListing reg with
      | .error e => .error e
      | .ok text => .ok (sess, some text)
    else
      match lookupCmd reg topic with
      | some entry => .ok (sess, some (topic ++ "\n" ++ (entry.doc.getD "")))
      | none =>
        match dictGet BUILTIN_DOCS topic with
        | some d => .ok (sess, some (topic ++ "\n" ++ d))
        | none => .ok (sess, some ("No such command: " ++ topic))
  else if command = "alias" then
    let raw := dictGetD args "str" ""
    if raw = "" then
      .ok (sess, some ("usage: alias name=" ++ String.mk [sq] ++ "expansion" ++ String.mk [sq]))
    else
      match aliasBody sess raw with
      | .error e => .ok (sess, some ("alias failed: " ++ e))
      | .ok (s', t) => .ok (s', some t)
  else if command = "unalias" then
    let name := pyStrip (dictGetD args "str" "")
    if name = "" then .ok (sess, some "usage: unalias name")
    else .ok ({sess with aliases := dictPop sess.aliases name}, some "")
  else if command = "aliases" then
    if sess.aliases = [] then .ok (sess, some "no aliases")
    else .ok (sess, some (String.intercalate "\n" (sess.aliases.map (fun kv => kv.1 ++ " -> " ++ kv.2))))
  else if command = "cd" then
    let path0 := (truthyOpt (dictGet args "str")).getD (dictGetD args "path" "")
    let path := if path0 = "" then w.home else path0
    match w.chdir sess.cwd (expandEnvInStr sess.env path) with
    | .ok newCwd => .ok ({sess with cwd := newCwd}, some newCwd)
    | .error e => .ok (sess, some ("cd failed: " ++ e))
  else if command = "pwd" then
    .ok (sess, some sess.cwd)
  else if command = "echo" ∨ command = "print" then
    .ok (sess, some (expandEnvInStr sess.env (dictGetD args "str" "")))
  else if command = "ls" then
    let path0 := (truthyOpt (dictGet args "str")).getD (dictGetD args "path" ".")
    match w.listdir (expandEnvInStr sess.env path0) with
    | .ok entries => .ok (sess, some (String.intercalate "\n" (sortKeys entries)))
    | .error e => .ok (sess, some ("ls failed: " ++ e))
  else if command = "env" then
    .ok (sess, some (String.intercalate "\n" (sess.env.map (fun kv => kv.1 ++ "=" ++ kv.2))))
  else if command = "set" then
    let raw := pyStrip (dictGetD args "str" "")
    if raw = "" then .ok (sess, some "usage: set VAR=VALUE")
    else
      let nameValue : Option (String × String) :=
        if strContains raw "=" then
          let nr := splitEqOnce raw
          some (pyStrip nr.1, pyStrip nr.2)
        else
          match (shlexSplit raw).getD (naiveSplit raw) with
          | [] => none
          | [_] => none
          | p :: rest => some (p, joinSpace rest)
      match nameValue with
      | none => .ok (sess, some "usage: set VAR=VALUE")
      | some (name0, value0) =>
        let name1 := if pyStartsWith name0 "$env:" then strDrop name0 5 else name0
        let name := if pyStartsWith name1 "$" then strDrop name1 1 else name1
        let value :=
          match value0.data with
          | c :: _ :: _ =>
            if c = value0.data.getLast! ∧ (c = '"' ∨ c = sq) then
              String.mk (value0.data.drop 1).dropLast
            else value0
          | _ => value0
        .ok ({sess with env := dictSet sess.env name value}, some "")
  else if command = "get" then
    let k0 := dictGetD args "str" ""
    if k0 = "" then .ok (sess, some "")
    else
      let k1 := if pyStartsWith k0 "$env:" then strDrop k0 5 else k0
      let k := if pyStartsWith k1 "$" then strDrop k1 1 else k1
      .ok (sess, some (envGet sess.env k))
  else
    .ok (sess, none)

/-! ### Chain resolver (`_evaluate_composed_chain_if_any`, `_evaluate_inner_chain_if_any`)

Outcome encoding: `.ok (session, some text)` = `(True, text)` (composed),
`.ok (session, none)` = `(False, None)` (not applicable), `.error` = an
exception escaping the Python function.  All command/builtin invocations are
wrapped in `try/except` by the Python code; the only operations that could
raise outside a `try` are the `chain[-1]` and `pos_indices[found_pos_idx]`
indexings, which the embedding exposes as the two `.error` branches. -/

/-- A token participates in a chain when it names a registry command or a
builtin and is not quoted in the source line. -/
def chainTok (reg : Registry) (originalText : String) (tok : String) : Bool :=
  ((lookupCmd reg tok).isSome ∨ tok ∈ BUILTIN_NAMES) ∧ ¬ wasQuoted tok originalText

/-- The scan of `_evaluate_composed_chain_if_any`: first positional index
whose token qualifies, together with the maximal contiguous qualifying run
starting there. -/
def findChain (p : String → Bool) : List String → Option (Nat × List String)
  | [] => none
  | t :: rest =>
    if p t then some (0, (t :: rest).takeWhile p)
    else (findChain p rest).map (fun ic => (ic.1 + 1, ic.2))

/-- Python `for idx in range(start, len(parts)): if parts[idx] == tok: ...` -/
def findTokenFrom (parts : List String) (start : Nat) (tok : String) : Option Nat :=
  ((parts.drop start).findIdx? (fun t => t = tok)).map (fun j => start + j)

/-- One application step of the outer chain elements (`try` body at chain
positions other than the innermost): builtins receive `{"str": value}`, module
commands likewise; `none` = the step failed (unhandled builtin, unknown
command, or a caught exception). -/
def chainStep (reg : Registry) (w : World) (sess : Session) (cmdName : String) (value : String) :
    Session × Option String :=
  if cmdName ∈ BUILTIN_NAMES then
    match runBuiltin reg w sess cmdName [("str", value)] with
    | .error _ => (sess, none)
    | .ok (s', none) => (s', none)
    | .ok (s', some out) => (s', some out)
  else
    match lookupCmd reg cmdName with
    | none => (sess, none)
    | some entry =>
      match entry.fn [("str", value)] with
      | .error _ => (sess, none)
      | .ok r => (sess, some r)

/-- Apply the remaining chain elements right-to-left (already reversed by the
caller); a failing step aborts but keeps the state mutated so far, as the
Python globals do. -/
def applyChainRest (reg : Registry) (w : World) :
    Session → List String → String → Session × Option String
  | sess, [], v => (sess, some v)
  | sess, c :: cs, v =>
    match chainStep reg w sess c v with
    | (s', none) => (s', none)
    | (s', some v') => applyChainRest reg w s' cs v'

/-- The innermost invocation (`try` block): build args from the inner token
slice and invoke the builtin or registry function.  `.error` = a raised
exception, caught by both call sites. -/
def evalInnerCall (reg : Registry) (w : World) (sess : Session)
    (partsForInner : List String) (originalText : String) :
    Except String (Session × Option String) :=
  match partsForInner with
  | [] => .error "IndexError: list index out of range"
  | innCmd :: _ =>
    let innArgs := buildArgsFromParts partsForInner originalText
    if innCmd ∈ BUILTIN_NAMES then
      match runBuiltin reg w sess innCmd innArgs with
      | .error e => .error e
      | .ok (s', none) => .ok (s', none)
      | .ok (s', some out) => .ok (s', some out)
    else
      match lookupCmd reg innCmd with
      | none => .ok (sess, none)
      | some entry =>
        match entry.fn innArgs with
        | .error e => .error e
        | .ok v => .ok (sess, some v)

/-- Everything of `_evaluate_composed_chain_if_any` after the two unguarded
indexings; total by construction, mirroring the Python control flow. -/
def chainContinue (reg : Registry) (w : World) (sess : Session) (command : String)
    (parts : List String) (originalText : String) (fidx : Nat) (chain : List String)
    (innermost : String) (startScan : Nat) (pis : List Nat) : Session × Option String :=
  let startIdx := findTokenFrom parts startScan innermost
  let partsForInner :=
    match startIdx with
    | none => innermost :: (extractPositional parts).drop (fidx + chain.length)
    | some si => parts.drop si
  match evalInnerCall reg w sess partsForInner originalText with
  | .error _ => (sess, none)
  | .ok (sess1, none) => (sess1, none)
  | .ok (sess1, some value0) =>
    match applyChainRest reg w sess1 (chain.dropLast.reverse) value0 with
    | (sess2, none) => (sess2, none)
    | (sess2, some value) =>
      let consumed := consumedLength partsForInner
      let endIdx := (startIdx.getD startScan) + consumed - 1
      let lastChainPos :=
        if fidx + chain.length - 1 < pis.length then (pis.get? (fidx + chain.length - 1)).getD startScan
        else startScan
      let endPos := max endIdx lastChainPos
      let newParts := parts.take startScan ++ [value] ++ parts.drop (endPos + 1)
      let outerArgs := buildArgsFromParts newParts (joinSpace newParts)
      if command ∈ BUILTIN_NAMES then
        match runBuiltin reg w sess2 command outerArgs with
        | .error _ => (sess2, none)
        | .ok (s', none) => (s', none)
        | .ok (s', some out) => (s', some out)
      else
        match lookupCmd reg command with
        | none => (sess2, none)
        | some entry =>
          match entry.fn outerArgs with
          | .error _ => (sess2, none)
          | .ok r => (sess2, some r)

/-- Embeds `dispatch._evaluate_composed_chain_if_any`. -/
def evaluateComposedChain (reg : Registry) (w : World) (sess : Session) (command : String)
    (parts : List String) (originalText : String) : Except String (Session × Option String) :=
  let positional := extractPositional parts
  if positional.isEmpty then .ok (sess, none)
  else
    let pis := posIndices parts
    if pis.isEmpty then .ok (sess, none)
    else
      match findChain (chainTok reg originalText) positional with
      | none => .ok (sess, none)
      | some (fidx, chain) =>
        match chain.getLast? with
        | none => .error "IndexError: list index out of range"
        | some innermost =>
          match pis.get? fidx with
          | none => .error "IndexError: list index out of range"
          | some startScan =>
            .ok (chainContinue reg w sess command parts originalText fidx chain innermost startScan pis)

/-- Embeds `dispatch._evaluate_inner_chain_if_any`: chain detection anchored at the
first positional token; evaluates the whole chain but does not apply the
outer command.  Python has no unguarded indexing here, so the embedding is
total. -/
def evaluateInnerChain (reg : Registry) (w : World) (sess : Session)
    (parts : List String) (originalText : String) : Session × Option String :=
  let positional := extractPositional parts
  if positional.isEmpty then (sess, none)
  else
    let chain := positional.takeWhile (chainTok reg originalText)
    match chain.getLast? with
    | none => (sess, none)
    | some innermost =>
      let startIdx := findTokenFrom parts 1 innermost
      let partsForInner :=
        match startIdx with
        | none => innermost :: positional.drop chain.length
        | some si => parts.drop si
      match evalInnerCall reg w sess partsForInner originalText with
      | .error _ => (sess, none)
      | .ok (sess1, none) => (sess1, none)
      | .ok (sess1, some value0) =>
        match applyChainRest reg w sess1 (chain.dropLast.reverse) value0 with
        | (sess2, none) => (sess2, none)
        | (sess2, some value) => (sess2, some value)

/-! ### Alias expansion (`_expand_aliases_line`) -/

/-- The expansion loop, with an explicit count of the expansions performed;
the fuel argument is `max_depth - depth`. -/
def expandLoopC (aliases : List (String × String)) : Nat → String → String × Nat
  | 0, l => (l, 0)
  | f + 1, l =>
    match splitTokens l with
    | [] => (l, 0)
    | first :: rest =>
      match dictGet aliases first with
      | none => (l, 0)
      | some expansion =>
        let newLine := if rest ≠ [] then expansion ++ " " ++ joinSpace rest else expansion
        let r := expandLoopC aliases f newLine
        (r.1, r.2 + 1)

/-- Embeds `dispatch._expand_aliases_line` together with the number of expansions
performed (the final value of the Python `depth` counter). -/
def expandAliasesLineC (aliases : List (String × String)) (line : String) : String × Nat :=
  if pyStrip line = "" then (line, 0) else expandLoopC aliases 5 line

/-- Embeds `dispatch._expand_aliases_line` (`max_depth = 5`). -/
def expandAliasesLine (aliases : List (String × String)) (line : String) : String :=
  (expandAliasesLineC aliases line).1

/-! ### Worker loop (`modules/workerthread.py`) -/

/-- The result text computed for one consumed task by `Worker.run`: dynamic
registry lookup, unknown-command text, or the `except` branch's error text. -/
def workerBody (reg : Registry) (cmd : String) (args : Args) : String :=
  match lookupCmd reg cmd with
  | some entry =>
    match entry.fn args with
    | .ok r => r
    | .error e => "Fehler bei " ++ cmd ++ ": " ++ e
  | none => "Unbekanntes Kommando: " ++ cmd

/-- Consuming one task publishes exactly one `(worker-id, text)` pair on the
shared result channel (the `finally` block's `result_queue.put`). -/
def workerStep (reg : Registry) (wid : Nat) (task : String × Args)
    (results : List (Nat × String)) : List (Nat × String) :=
  results ++ [(wid, workerBody reg task.1 task.2)]

/-- The worker loop over a stream of consumed tasks; the worker survives every
task because both the unknown-command case and the raising case are converted
to result texts. -/
def workerRun (reg : Registry) (wid : Nat) (tasks : List (String × Args))
    (results : List (Nat × String)) : List (Nat × String) :=
  tasks.foldl (fun rs t => workerStep reg wid t rs) results

/-! ### `dispatch.handle_input`

The observable actions of one dispatched line.  Logger cosmetics (worker-name
prefixes, colorization) are abstracted: `.output` is a user-visible result
text, `.debugMsg` a `_dbg` message emitted only when debugging is not
suppressed, `.enqueue` a `master.add_task` call, `.resultRead` a blocking read
of the shared result channel (`some t` = bounded by a `t`-second timeout,
`none` = unbounded); the report printed after each read is folded into the
read effect because its text comes from the concurrent result channel.
`.shellRun` is a streamed external command.  The function returns `.error`
exactly when the Python function lets an exception escape. -/

inductive Effect where
  | output (s : String)
  | debugMsg (s : String)
  | enqueue (cmd : String) (args : Args)
  | resultRead (timeoutSecs : Option Nat)
  | shellRun (shell : String) (cmd : String)
deriving DecidableEq, Repr

/-- Embeds `_dbg`: log only when debug output is not suppressed. -/
def dbgIf (sess : Session) (msg : String) : List Effect :=
  if sess.debugSuppressed then [] else [.debugMsg msg]

/-- The module-level function definitions of `modules/shell_executor.py`.
`run_cmd` is not among them: `dispatch.handle_input`'s `!cmd` branch calls
`shell_executor.run_cmd(cmd_str)`, which raises `AttributeError`. -/
def shellExecutorDefs : List String :=
  ["_reader_thread", "_run_stream", "run_pwsh_stream", "run_cmd_stream"]

/-- The `!pwsh` top-level branch. -/
def pwshBranch (w : World) (sess : Session) (dbgEff : List Effect) (line command : String) :
    Except String (Session × List Effect) :=
  let raw := pyStrip (strDrop line command.length)
  if raw = "" then .ok (sess, dbgEff ++ dbgIf sess "Keine pwsh Anweisung angegeben.")
  else
    match w.runPwsh raw with
    | .error e => .ok (sess, dbgEff ++ [.shellRun "pwsh" raw, .output ("pwsh failed: " ++ e)])
    | .ok rc => .ok (sess, dbgEff ++ [.shellRun "pwsh" raw] ++ dbgIf sess ("pwsh exited: " ++ toString rc))

/-- The `!cmd` top-level branch: `shell_executor.run_cmd` does not exist, so a
non-empty command string raises `AttributeError` before anything runs. -/
def cmdBranch (sess : Session) (dbgEff : List Effect) (line command : String) :
    Except String (Session × List Effect) :=
  let cmdStr := pyStrip (strDrop line command.length)
  if cmdStr = "" then .ok (sess, dbgEff ++ [.output "Keine cmd-Anweisung angegeben."])
  else if "run_cmd" ∈ shellExecutorDefs then
    .ok (sess, dbgEff ++ [.shellRun "cmd" cmdStr])
  else
    .error "AttributeError: module modules.shell_executor has no attribute run_cmd"

/-- One subcommand of a `!multithread`/`!mt` line; the `Nat` is the increment
of `task_count` (1 when the subcommand was enqueued, otherwise 0). -/
def mtProcessSub (reg : Registry) (w : World) (sess : Session) (globalShell : Option String)
    (sub : String) : Except String (Session × List Effect × Nat) :=
  match splitTokens sub with
  | [] => .ok (sess, [], 0)
  | sp0 :: spRest =>
    let subParts := sp0 :: spRest
    let shellChoice : Option (String × Nat) :=
      match globalShell with
      | some g => some (g, 0)
      | none => if sp0 = "!pwsh" ∨ sp0 = "!cmd" then some (sp0, 1) else none
    match shellChoice with
    | some (sm, cmdStart) =>
      let cmdStr := pyStrip (joinSpace (subParts.drop cmdStart))
      if cmdStr = "" then .ok (sess, [.output ("Keine " ++ sm ++ " Anweisung angegeben.")], 0)
      else
        match (if sm = "!pwsh" then w.runPwsh cmdStr else w.runCmdStream cmdStr) with
        | .error e => .ok (sess, [.shellRun sm cmdStr, .output ("shell failed: " ++ e)], 0)
        | .ok rc => .ok (sess, [.shellRun sm cmdStr] ++ dbgIf sess (sm ++ " exited: " ++ toString rc), 0)
    | none =>
      match evaluateInnerChain reg w sess subParts sub with
      | (sess1, some innerValue) =>
        .ok (sess1, dbgIf sess1 ("Enqueue: " ++ sp0 ++ " " ++ innerValue) ++
              [.enqueue sp0 [("str", innerValue)]], 1)
      | (sess1, none) =>
        let args := buildArgsFromParts subParts sub
        match runBuiltin reg w sess1 sp0 args with
        | .error e => .error e
        | .ok (sess2, some out) =>
          .ok (sess2, if out ≠ "" then [.output out] else [], 0)
        | .ok (sess2, none) =>
          let argsExpanded := expandEnvInArgs sess2.env args
          .ok (sess2, dbgIf sess2 ("Enqueue: " ++ sub) ++ [.enqueue sp0 argsExpanded], 1)

/-- The `for sub in subcmds:` loop. -/
def mtLoop (reg : Registry) (w : World) (globalShell : Option String) :
    Session → List String → Except String (Session × List Effect × Nat)
  | sess, [] => .ok (sess, [], 0)
  | sess, sub :: rest =>
    match mtProcessSub reg w sess globalShell sub with
    | .error e => .error e
    | .ok (s1, e1, k1) =>
      match mtLoop reg w globalShell s1 rest with
      | .error e => .error e
      | .ok (s2, e2, k2) => .ok (s2, e1 ++ e2, k1 + k2)

/-- The `!multithread`/`!mt` branch: dispatch all subcommands, then perform
exactly `task_count` reads of the result channel, each bounded by a 10-second
timeout. -/
def mtBranch (reg : Registry) (w : World) (sess : Session) (dbgEff : List Effect)
    (line command : String) : Except String (Session × List Effect) :=
  let remainder := pyStrip (strDrop line command.length)
  if remainder = "" then .ok (sess, dbgEff ++ dbgIf sess "Keine Unterbefehle angegeben.")
  else
    let tokens := splitTokens remainder
    let globalShell : Option String :=
      match tokens with
      | t :: _ => if t = "!pwsh" ∨ t = "!cmd" then some t else none
      | [] => none
    let remainderAfter :=
      match globalShell with
      | some t => pyStrip (strDrop remainder t.length)
      | none => remainder
    let subcmds := ((splitOnChar '&' remainderAfter).map pyStrip).filter (fun s => s ≠ "")
    if subcmds = [] then .ok (sess, dbgEff ++ dbgIf sess "Keine Unterbefehle angegeben.")
    else
      match mtLoop reg w globalShell sess subcmds with
      | .error e => .error e
      | .ok (s', effs, n) =>
        .ok (s', dbgEff ++ effs ++ dbgIf s' ("Added " ++ toString n ++ " tasks (multithread)") ++
              List.replicate n (Effect.resultRead (some 10)))

/-- The tail of `handle_input`: composed-chain attempt, builtin, or enqueue
plus one unbounded result read. -/
def mainBranch (reg : Registry) (w : World) (sess : Session) (dbgEff : List Effect)
    (line command : String) (parts : List String) : Except String (Session × List Effect) :=
  match evaluateComposedChain reg w sess command parts line with
  | .error e => .error e
  | .ok (sess1, some result) => .ok (sess1, dbgEff ++ [.output result])
  | .ok (sess1, none) =>
    let args := buildArgsFromParts parts line
    match runBuiltin reg w sess1 command args with
    | .error e => .error e
    | .ok (sess2, some out) => .ok (sess2, dbgEff ++ (if out ≠ "" then [.output out] else []))
    | .ok (sess2, none) =>
      let argsExpanded := expandEnvInArgs sess2.env args
      .ok (sess2, dbgEff ++ dbgIf sess2 ("Enqueue: " ++ line) ++
            [.enqueue command argsExpanded, .resultRead none])

/-- Embeds `handle_input` after alias expansion (the expanded line is `line`). -/
def afterAlias (reg : Registry) (w : World) (sess : Session) (dbgEff : List Effect)
    (line : String) : Except String (Session × List Effect) :=
  let cl := pyLower (pyStrip line)
  if cl = "!suppressdebug" ∨ cl = "!suppress-debug" then
    .ok ({sess with debugSuppressed := true}, dbgEff ++ [.output "Debug suppressed for this session."])
  else if cl = "!resumedebug" ∨ cl = "!enabledebug" ∨ cl = "!unsuppressdebug" then
    .ok ({sess with debugSuppressed := false}, dbgEff ++ [.output "Debug resumed for this session."])
  else
    match splitTokens line with
    | [] => .ok (sess, dbgEff)
    | command :: restParts =>
      if command = "!pwsh" then pwshBranch w sess dbgEff line command
      else if command = "!cmd" then cmdBranch sess dbgEff line command
      else if command = "!multithread" ∨ command = "!mt" then mtBranch reg w sess dbgEff line command
      else mainBranch reg w sess dbgEff line command (command :: restParts)

/-- Embeds `dispatch.handle_input`. -/
def handleInput (reg : Registry) (w : World) (sess : Session) (commandLine : String) :
    Except String (Session × List Effect) :=
  if pyStrip commandLine = "" then .ok (sess, [])
  else
    let expanded := expandAliasesLine sess.aliases commandLine
    let dbgEff :=
      if expanded = commandLine then []
      else dbgIf sess ("Alias expanded: " ++ commandLine ++ " -> " ++ expanded)
    afterAlias reg w sess dbgEff expanded

/-! ### Binary container codec (`app.py`)

Bytes are `List Nat`.  `gzip.compress`/`gzip.decompress` and
`json.dumps`/`json.loads` are external library code and are abstract
parameters; the framing (magic, 8-byte big-endian length, manifest, payload)
is concrete. -/

/-- The magic header `_LE_MAGIC = b"LUWEXE1"`. -/
def leMagic : List Nat := [76, 85, 87, 69, 88, 69, 49]

/-- Python `n.to_bytes(k, "big")` (the Python call raises `OverflowError` for
`n ≥ 256^k`; theorems carry that bound as a hypothesis). -/
def natToBytesBE : Nat → Nat → List Nat
  | 0, _ => []
  | k + 1, n => natToBytesBE k (n / 256) ++ [n % 256]

/-- Python `int.from_bytes(bs, "big")`. -/
def bytesToNatBE (bs : List Nat) : Nat :=
  bs.foldl (fun acc b => acc * 256 + b) 0

/-- Lossy UTF-8 decoding, `bytes.decode("utf-8", errors="replace")`: total by
construction; invalid bytes become U+FFFD. -/
def replChar : Char := Char.ofNat 0xFFFD

def isContByte (b : Nat) : Bool := 0x80 ≤ b ∧ b ≤ 0xBF

def utf8LossyAux : Nat → List Nat → List Char
  | 0, _ => []
  | _ + 1, [] => []
  | f + 1, b :: bs =>
    if b < 0x80 then
      Char.ofNat b :: utf8LossyAux f bs
    else if 0xC2 ≤ b ∧ b ≤ 0xDF then
      match bs with
      | b2 :: rest =>
        if isContByte b2 then Char.ofNat ((b - 0xC0) * 64 + (b2 - 0x80)) :: utf8LossyAux f rest
        else replChar :: utf8LossyAux f bs
      | [] => [replChar]
    else if 0xE0 ≤ b ∧ b ≤ 0xEF then
      match bs with
      | b2 :: b3 :: rest =>
        if isContByte b2 ∧ isContByte b3 ∧
            ¬ (b = 0xE0 ∧ b2 < 0xA0) ∧ ¬ (b = 0xED ∧ 0xA0 ≤ b2) then
          Char.ofNat ((b - 0xE0) * 4096 + (b2 - 0x80) * 64 + (b3 - 0x80)) :: utf8LossyAux f rest
        else replChar :: utf8LossyAux f bs
      | _ => [replChar]
    else if 0xF0 ≤ b ∧ b ≤ 0xF4 then
      match bs with
      | b2 :: b3 :: b4 :: rest =>
        if isContByte b2 ∧ isContByte b3 ∧ isContByte b4 ∧
            ¬ (b = 0xF0 ∧ b2 < 0x90) ∧ ¬ (b = 0xF4 ∧ 0x90 ≤ b2) then
          Char.ofNat ((b - 0xF0) * 262144 + (b2 - 0x80) * 4096 + (b3 - 0x80) * 64 + (b4 - 0x80)) ::
            utf8LossyAux f rest
        else replChar :: utf8LossyAux f bs
      | _ => [replChar]
    else replChar :: utf8LossyAux f bs

/-- Python `bytes.decode("utf-8", errors="replace")`, a total function. -/
def utf8Lossy (bs : List Nat) : String :=
  String.mk (utf8LossyAux bs.length bs)

/-- The layout written by `compile_latin`: magic, 8-byte big-endian manifest
length, manifest bytes, compressed payload. -/
def encodeLE (compress : List Nat → List Nat) (manifest payload : List Nat) : List Nat :=
  leMagic ++ natToBytesBE 8 manifest.length ++ manifest ++ compress payload

/-- The manifest length field read by `load_and_run_le`. -/
def manifestLenOf (file : List Nat) : Nat :=
  bytesToNatBE ((file.drop 7).take 8)

/-- The manifest bytes read by `load_and_run_le`. -/
def manifestBytesOf (file : List Nat) : List Nat :=
  ((file.drop 7).drop 8).take (manifestLenOf file)

/-- The remaining (compressed) payload read by `load_and_run_le`. -/
def payloadBytesOf (file : List Nat) : List Nat :=
  ((file.drop 7).drop 8).drop (manifestLenOf file)

/-- The decode phase of `load_and_run_le`: verify magic, parse the
length-prefixed manifest, decompress the remainder, lossily decode the text.
`jparse` models `json.loads(·.decode("utf-8"))`, `decompress` models
`gzip.decompress`; `none` models their raised exceptions. -/
def decodeLE {M : Type} (jparse : List Nat → Option M)
    (decompress : List Nat → Option (List Nat)) (file : List Nat) :
    Except String (M × List Nat × String) :=
  if file.take 7 ≠ leMagic then .error "Not a LUW binary (.le) or unsupported version"
  else
    match jparse (manifestBytesOf file) with
    | none => .error "Invalid manifest"
    | some m =>
      match decompress (payloadBytesOf file) with
      | none => .error "Invalid payload (not gzip?)"
      | some scriptBytes => .ok (m, scriptBytes, utf8Lossy scriptBytes)

/-! ### Concrete fixtures for the testable scenarios -/

/-- A deterministic external world for concrete runs: no files, no network,
`chdir` echoes the requested path. -/
def w0 : World where
  home := "/root"
  chdir := fun _ path => .ok path
  listdir := fun _ => .ok []
  readFile := fun _ => .error "FileNotFoundError"
  fetchUrl := fun _ => .error "URLError"
  runPwsh := fun _ => .ok 0
  runCmdStream := fun _ => .ok 0

/-- A registry holding the two chain commands the spec's scenarios use
(`reverse` with its real docstring head, `upper` with none, as in
`modules/commands.py`). -/
def reg0 : Registry :=
  [("reverse", ⟨fun a => .ok (cmdReverse w0 a), some "Reverse text."⟩),
   ("upper", ⟨fun a => .ok (cmdUpper a), none⟩)]

/-- An initial session: empty environment, no aliases, debug enabled. -/
def sess0 : Session where
  env := []
  cwd := "/root"
  aliases := []
  debugSuppressed := false

/-! ### Effect accounting -/

def isEnq : Effect → Bool
  | .enqueue _ _ => true
  | _ => false

def isRead : Effect → Bool
  | .resultRead _ => true
  | _ => false

/-- Number of `add_task` calls in a trace. -/
def countEnq (l : List Effect) : Nat := l.countP isEnq

/-- Number of result-channel reads in a trace. -/
def countReads (l : List Effect) : Nat := l.countP isRead

theorem countEnq_append (a b : List Effect) : countEnq (a ++ b) = countEnq a + countEnq b :=
  List.countP_append ..

theorem countReads_append (a b : List Effect) : countReads (a ++ b) = countReads a + countReads b :=
  List.countP_append ..

theorem countEnq_cons (x : Effect) (l : List Effect) :
    countEnq (x :: l) = countEnq l + (if isEnq x then 1 else 0) :=
  List.countP_cons ..

theorem countReads_cons (x : Effect) (l : List Effect) :
    countReads (x :: l) = countReads l + (if isRead x then 1 else 0) :=
  List.countP_cons ..

theorem countEnq_nil : countEnq [] = 0 := rfl

theorem countReads_nil : countReads [] = 0 := rfl

theorem countEnq_dbgIf (s : Session) (m : String) : countEnq (dbgIf s m) = 0 := by
  unfold dbgIf; split <;> simp [countEnq, isEnq]

theorem countReads_dbgIf (s : Session) (m : String) : countReads (dbgIf s m) = 0 := by
  unfold dbgIf; split <;> simp [countReads, isRead]

theorem countReads_replicate (n : Nat) (t : Option Nat) :
    countReads (List.replicate n (Effect.resultRead t)) = n := by
  induction n with
  | zero => simp [countReads]
  | succ k ih => simp [countReads, List.replicate_succ, List.countP_cons, isRead] at ih ⊢
                 omega

theorem countEnq_replicate (n : Nat) (t : Option Nat) :
    countEnq (List.replicate n (Effect.resultRead t)) = 0 := by
  induction n with
  | zero => simp [countEnq]
  | succ k ih => simp [countEnq, List.replicate_succ, List.countP_cons, isEnq] at ih ⊢

theorem mtProcessSub_counts (reg : Registry) (w : World) (sess : Session)
    (gsh : Option String) (sub : String) (s : Session) (e : List Effect) (k : Nat)
    (h : mtProcessSub reg w sess gsh sub = .ok (s, e, k)) :
    countEnq e = k ∧ countReads e = 0 := by
  unfold mtProcessSub at h
  split at h
  · cases h
    simp [countEnq_nil, countReads_nil]
  · dsimp only at h
    split at h
    · -- shell mode
      split at h
      · cases h
        simp [countEnq_cons, countReads_cons, countEnq_nil, countReads_nil, isEnq, isRead]
      · split at h
        · cases h
          simp [countEnq_cons, countReads_cons, countEnq_nil, countReads_nil, isEnq, isRead]
        · cases h
          simp [countEnq_append, countReads_append, countEnq_dbgIf, countReads_dbgIf,
                countEnq_cons, countReads_cons, countEnq_nil, countReads_nil, isEnq, isRead]
    · -- no shell mode: inner chain / builtin / enqueue
      split at h
      · cases h
        simp [countEnq_append, countReads_append, countEnq_dbgIf, countReads_dbgIf,
              countEnq_cons, countReads_cons, countEnq_nil, countReads_nil, isEnq, isRead]
      · split at h
        · exact absurd h (by simp)
        · split at h <;> cases h <;>
            simp [countEnq_cons, countReads_cons, countEnq_nil, countReads_nil, isEnq, isRead]
        · cases h
          simp [countEnq_append, countReads_append, countEnq_dbgIf, countReads_dbgIf,
                countEnq_cons, countReads_cons, countEnq_nil, countReads_nil, isEnq, isRead]

theorem mtLoop_counts (reg : Registry) (w : World) (gsh : Option String) :
    ∀ (subs : List String) (sess s : Session) (e : List Effect) (k : Nat),
    mtLoop reg w gsh sess subs = .ok (s, e, k) → countEnq e = k ∧ countReads e = 0 := by
  intro subs
  induction subs with
  | nil =>
    intro sess s e k h
    unfold mtLoop at h
    cases h
    simp [countEnq, countReads]
  | cons sub rest ih =>
    intro sess s e k h
    unfold mtLoop at h
    cases h1 : mtProcessSub reg w sess gsh sub with
    | error err => rw [h1] at h; exact absurd h (by simp)
    | ok t1 =>
      obtain ⟨s1, e1, k1⟩ := t1
      rw [h1] at h
      dsimp only at h
      cases h2 : mtLoop reg w gsh s1 rest with
      | error err => rw [h2] at h; exact absurd h (by simp)
      | ok t2 =>
        obtain ⟨s2, e2, k2⟩ := t2
        rw [h2] at h
        dsimp only at h
        simp only [Except.ok.injEq, Prod.mk.injEq] at h
        obtain ⟨hs, he, hk⟩ := h
        subst hs he hk
        obtain ⟨ha, hb⟩ := mtProcessSub_counts reg w sess gsh sub s1 e1 k1 h1
        obtain ⟨hc, hd⟩ := ih s1 s2 e2 k2 h2
        constructor
        · rw [countEnq_append, ha, hc]
        · rw [countReads_append, hb, hd]

theorem pwshBranch_counts (w : World) (sess : Session) (dbgEff : List Effect)
    (line command : String) (s : Session) (e : List Effect)
    (hdbgE : countEnq dbgEff = 0) (hdbgR : countReads dbgEff = 0)
    (h : pwshBranch w sess dbgEff line command = .ok (s, e)) :
    countEnq e = 0 ∧ countReads e = 0 := by
  unfold pwshBranch at h
  dsimp only at h
  split at h
  · cases h
    simp [countEnq_append, countReads_append, countEnq_dbgIf, countReads_dbgIf, hdbgE, hdbgR]
  · split at h <;> cases h <;>
      simp [countEnq_append, countReads_append, countEnq_dbgIf, countReads_dbgIf,
            countEnq_cons, countReads_cons, countEnq_nil, countReads_nil, isEnq, isRead,
            hdbgE, hdbgR]

theorem cmdBranch_counts (sess : Session) (dbgEff : List Effect)
    (line command : String) (s : Session) (e : List Effect)
    (hdbgE : countEnq dbgEff = 0) (hdbgR : countReads dbgEff = 0)
    (h : cmdBranch sess dbgEff line command = .ok (s, e)) :
    countEnq e = 0 ∧ countReads e = 0 := by
  unfold cmdBranch at h
  dsimp only at h
  split at h
  · cases h
    simp [countEnq_append, countReads_append, countEnq_cons, countReads_cons,
          countEnq_nil, countReads_nil, isEnq, isRead, hdbgE, hdbgR]
  · rw [if_neg (by decide)] at h
    exact absurd h (by simp)

theorem mtBranch_counts (reg : Registry) (w : World) (sess : Session) (dbgEff : List Effect)
    (line command : String) (s : Session) (e : List Effect)
    (hdbgE : countEnq dbgEff = 0) (hdbgR : countReads dbgEff = 0)
    (h : mtBranch reg w sess dbgEff line command = .ok (s, e)) :
    countReads e = countEnq e := by
  unfold mtBranch at h
  dsimp only at h
  split at h
  · cases h
    simp [countEnq_append, countReads_append, countEnq_dbgIf, countReads_dbgIf, hdbgE, hdbgR]
  · split at h
    · cases h
      simp [countEnq_append, countReads_append, countEnq_dbgIf, countReads_dbgIf, hdbgE, hdbgR]
    · split at h
      · exact absurd h (by simp)
      · next t sl el nl hl =>
        cases h
        obtain ⟨ha, hb⟩ := mtLoop_counts reg w _ _ _ _ _ _ hl
        simp [countEnq_append, countReads_append, countEnq_dbgIf, countReads_dbgIf,
              countEnq_replicate, countReads_replicate, ha, hb, hdbgE, hdbgR]

theorem mainBranch_counts (reg : Registry) (w : World) (sess : Session) (dbgEff : List Effect)
    (line command : String) (parts : List String) (s : Session) (e : List Effect)
    (hdbgE : countEnq dbgEff = 0) (hdbgR : countReads dbgEff = 0)
    (h : mainBranch reg w sess dbgEff line command parts = .ok (s, e)) :
    countReads e = countEnq e := by
  unfold mainBranch at h
  dsimp only at h
  split at h
  · exact absurd h (by simp)
  · cases h
    simp [countEnq_append, countReads_append, countEnq_cons, countReads_cons,
          countEnq_nil, countReads_nil, isEnq, isRead, hdbgE, hdbgR]
  · split at h
    · exact absurd h (by simp)
    · split at h <;> cases h <;>
        simp [countEnq_append, countReads_append, countEnq_cons, countReads_cons,
              countEnq_nil, countReads_nil, isEnq, isRead, hdbgE, hdbgR]
    · cases h
      simp [countEnq_append, countReads_append, countEnq_dbgIf, countReads_dbgIf,
            countEnq_cons, countReads_cons, countEnq_nil, countReads_nil, isEnq, isRead,
            hdbgE, hdbgR]

theorem afterAlias_counts (reg : Registry) (w : World) (sess : Session) (dbgEff : List Effect)
    (line : String) (s : Session) (e : List Effect)
    (hdbgE : countEnq dbgEff = 0) (hdbgR : countReads dbgEff = 0)
    (h : afterAlias reg w sess dbgEff line = .ok (s, e)) :
    countReads e = countEnq e := by
  unfold afterAlias at h
  dsimp only at h
  split at h
  · cases h
    simp [countEnq_append, countReads_append, countEnq_cons, countReads_cons,
          countEnq_nil, countReads_nil, isEnq, isRead, hdbgE, hdbgR]
  · split at h
    · cases h
      simp [countEnq_append, countReads_append, countEnq_cons, countReads_cons,
            countEnq_nil, countReads_nil, isEnq, isRead, hdbgE, hdbgR]
    · split at h
      · cases h
        rw [hdbgE, hdbgR]
      · split at h
        · obtain ⟨ha, hb⟩ := pwshBranch_counts w sess dbgEff line _ s e hdbgE hdbgR h
          rw [ha, hb]
        · split at h
          · obtain ⟨ha, hb⟩ := cmdBranch_counts sess dbgEff line _ s e hdbgE hdbgR h
            rw [ha, hb]
          · split at h
            · exact mtBranch_counts reg w sess dbgEff line _ s e hdbgE hdbgR h
            · exact mainBranch_counts reg w sess dbgEff line _ _ s e hdbgE hdbgR h

/-- C2 (counterexample): dispatching the batch line `!mt echo a & echo b`
enqueues 0 tasks and performs 0 timeout-bounded result reads — not 2 and 2 as
claimed — because `echo` is a builtin that the batch loop handles
synchronously without touching the worker pool. -/
theorem c2_counterexample :
    handleInput reg0 w0 sess0 "!mt echo a & echo b" =
      .ok (sess0, [Effect.output "a", Effect.output "b",
        Effect.debugMsg "Added 0 tasks (multithread)"]) ∧
    countEnq [Effect.output "a", Effect.output "b",
        Effect.debugMsg "Added 0 tasks (multithread)"] = 0 ∧
    countReads [Effect.output "a", Effect.output "b",
        Effect.debugMsg "Added 0 tasks (multithread)"] = 0 ∧
    (0 : Nat) ≠ 2 :=
  ⟨by rfl, rfl, rfl, by decide⟩

/-- C2 (amended): after dispatching a line, the caller performs exactly as
many blocking result-channel reads as tasks it enqueued; for a batch line
that number is the count of subcommands actually enqueued (subcommands
handled synchronously — builtins, shell escapes, composed-chain failures that
resolve to builtins — contribute no read), not the raw subcommand count. -/
theorem c2_reads_match_enqueues (reg : Registry) (w : World) (sess : Session)
    (line : String) (s : Session) (effs : List Effect)
    (h : handleInput reg w sess line = .ok (s, effs)) :
    countReads effs = countEnq effs := by
  unfold handleInput at h
  dsimp only at h
  split at h
  · cases h
    rfl
  · exact afterAlias_counts reg w sess _ _ s effs
      (by split <;> simp [countEnq_dbgIf, countEnq_nil])
      (by split <;> simp [countReads_dbgIf, countReads_nil]) h

/-- C2 witness: the single-subcommand batch line `!mt reverse abc` enqueues
one task and performs one timeout-bounded read. -/
theorem c2_reads_match_enqueues_witness :
    countReads [Effect.debugMsg "Enqueue: reverse abc",
      Effect.enqueue "reverse" [("str", "abc")],
      Effect.debugMsg "Added 1 tasks (multithread)", Effect.resultRead (some 10)] =
    countEnq [Effect.debugMsg "Enqueue: reverse abc",
      Effect.enqueue "reverse" [("str", "abc")],
      Effect.debugMsg "Added 1 tasks (multithread)", Effect.resultRead (some 10)] :=
  c2_reads_match_enqueues reg0 w0 sess0 "!mt reverse abc" sess0 _ rfl

/-! ### Chain-scan invariants -/

theorem mem_takeWhile_pred {p : String → Bool} :
    ∀ {l : List String} {t : String}, t ∈ l.takeWhile p → p t = true := by
  intro l
  induction l with
  | nil => intro t h; simp [List.takeWhile] at h
  | cons x rest ih =>
    intro t h
    rw [List.takeWhile_cons] at h
    by_cases hp : p x
    · rw [if_pos hp] at h
      rcases List.mem_cons.mp h with h1 | h2
      · rwa [h1]
      · exact ih h2
    · rw [if_neg hp] at h
      simp at h

theorem findChain_some {p : String → Bool} :
    ∀ {l : List String} {i : Nat} {c : List String},
    findChain p l = some (i, c) → c ≠ [] ∧ i < l.length := by
  intro l
  induction l with
  | nil => intro i c h; exact absurd h (by simp [findChain])
  | cons t rest ih =>
    intro i c h
    unfold findChain at h
    split at h
    · next hp =>
      rw [Option.some.injEq, Prod.mk.injEq] at h
      obtain ⟨hi, hc⟩ := h
      subst hi
      constructor
      · rw [← hc, List.takeWhile_cons, if_pos hp]
        simp
      · simp
    · cases hfc : findChain p rest with
      | none => rw [hfc] at h; exact absurd h (by simp)
      | some ic =>
        obtain ⟨i2, c2⟩ := ic
        rw [hfc] at h
        simp only [Option.map_some', Option.some.injEq, Prod.mk.injEq] at h
        obtain ⟨hi, hc⟩ := h
        obtain ⟨hcne, hlt⟩ := ih hfc
        subst hi
        constructor
        · rw [← hc]; exact hcne
        · simp only [List.length_cons]; omega

theorem findChain_mem {p : String → Bool} :
    ∀ {l : List String} {i : Nat} {c : List String},
    findChain p l = some (i, c) → ∀ t ∈ c, p t = true := by
  intro l
  induction l with
  | nil => intro i c h; exact absurd h (by simp [findChain])
  | cons x rest ih =>
    intro i c h
    unfold findChain at h
    split at h
    · rw [Option.some.injEq, Prod.mk.injEq] at h
      intro t ht
      exact mem_takeWhile_pred (h.2 ▸ ht)
    · cases hfc : findChain p rest with
      | none => rw [hfc] at h; exact absurd h (by simp)
      | some ic =>
        obtain ⟨i2, c2⟩ := ic
        rw [hfc] at h
        simp only [Option.map_some', Option.some.injEq, Prod.mk.injEq] at h
        obtain ⟨hi, hc⟩ := h
        intro t ht
        exact ih hfc t (by rw [hc]; exact ht)

theorem posIndices_length (parts : List String) :
    (posIndices parts).length = (extractPositional parts).length := by
  simp [posIndices, extractPositional]

/-- C6: chain resolution never lets an exception escape: for every registry,
session, command name, token list and original line it returns either a
composed result or the not-applicable verdict `(False, None)`, so the caller
can always fall back to ordinary single-command dispatch. -/
theorem c6_chain_resolution_total (reg : Registry) (w : World) (sess : Session)
    (command : String) (parts : List String) (originalText : String) :
    ∃ r, evaluateComposedChain reg w sess command parts originalText = .ok r := by
  unfold evaluateComposedChain
  dsimp only
  split
  · exact ⟨_, rfl⟩
  · split
    · exact ⟨_, rfl⟩
    · cases hfc : findChain (chainTok reg originalText) (extractPositional parts) with
      | none => exact ⟨_, rfl⟩
      | some ic =>
        obtain ⟨fidx, chain⟩ := ic
        dsimp only
        obtain ⟨hcne, hlt⟩ := findChain_some hfc
        cases hgl : chain.getLast? with
        | none => exact absurd (List.getLast?_eq_none_iff.mp hgl) hcne
        | some innermost =>
          simp only [hgl]
          cases hget : (posIndices parts).get? fidx with
          | none =>
            exfalso
            have hle := List.get?_eq_none.mp hget
            have := posIndices_length parts
            omega
          | some startScan =>
            simp only [hget]
            exact ⟨_, rfl⟩

/-- C4: dispatching `upper reverse hello` (with `upper` and `reverse`
registered) resolves the chain synchronously: `reverse` is applied to
`hello` giving `olleh`, `upper` is applied to `olleh`, and the dispatched
output is `OLLEH` — no task is enqueued. -/
theorem c4_chain_upper_reverse_hello :
    handleInput reg0 w0 sess0 "upper reverse hello" =
      .ok (sess0, [Effect.output "OLLEH"]) ∧
    evaluateComposedChain reg0 w0 sess0 "upper" ["upper", "reverse", "hello"]
      "upper reverse hello" = .ok (sess0, some "OLLEH") ∧
    cmdReverse w0 [("str", "hello")] = "olleh" ∧
    cmdUpper [("str", "olleh")] = "OLLEH" :=
  ⟨by rfl, by rfl, by rfl, by rfl⟩

/-- C5: dispatching `echo "upper hello"` returns the literal text
`upper hello` without invoking `upper` (the trace holds a single output
effect and no enqueue), and in general every token of a detected chain is
unquoted in the source line: a positional token that appears quoted is never
part of the chain. -/
theorem c5_quoting_suppresses_composition :
    (handleInput reg0 w0 sess0 "echo \"upper hello\"" =
      .ok (sess0, [Effect.output "upper hello"])) ∧
    (∀ (reg : Registry) (originalText : String) (l : List String) (i : Nat)
        (c : List String),
      findChain (chainTok reg originalText) l = some (i, c) →
      ∀ t ∈ c, wasQuoted t originalText = false) := by
  constructor
  · rfl
  · intro reg originalText l i c hfc t ht
    have hp := findChain_mem hfc t ht
    unfold chainTok at hp
    simp only [Bool.and_eq_true, decide_eq_true_eq] at hp
    exact Bool.not_eq_true _ ▸ (by simpa using hp.2)

/-- C5 witness for the quantified part: in the line `echo upper hello` the
token `upper` is unquoted and is indeed found as a chain. -/
theorem c5_quoting_witness :
    wasQuoted "upper" "echo upper hello" = false :=
  c5_quoting_suppresses_composition.2 reg0 "echo upper hello" ["upper", "hello"] 0 ["upper"]
    (by rfl) "upper" (by simp)

/-- C1: for every task a worker consumes it publishes exactly one
`(worker-id, text)` pair on the shared result channel and keeps running:
a raising command function yields that error text, an unregistered name
yields the unknown-command text, and the loop processes every further task
(no exception escapes, the process does not terminate). -/
theorem c1_worker_one_result_per_task (reg : Registry) (wid : Nat) (cmd : String)
    (args : Args) (results : List (Nat × String)) :
    workerStep reg wid (cmd, args) results = results ++ [(wid, workerBody reg cmd args)] ∧
    (workerStep reg wid (cmd, args) results).length = results.length + 1 ∧
    (lookupCmd reg cmd = none →
      workerBody reg cmd args = "Unbekanntes Kommando: " ++ cmd) ∧
    (∀ entry e, lookupCmd reg cmd = some entry → entry.fn args = .error e →
      workerBody reg cmd args = "Fehler bei " ++ cmd ++ ": " ++ e) ∧
    (∀ tasks : List (String × Args),
      (workerRun reg wid tasks results).length = results.length + tasks.length) := by
  refine ⟨rfl, by simp [workerStep], ?_, ?_, ?_⟩
  · intro hnone
    unfold workerBody
    rw [hnone]
  · intro entry e hsome herr
    unfold workerBody
    rw [hsome]
    dsimp only
    rw [herr]
  · intro tasks
    induction tasks generalizing results with
    | nil => simp [workerRun]
    | cons t rest ih =>
      unfold workerRun at ih ⊢
      rw [List.foldl_cons]
      rw [ih (workerStep reg wid t results)]
      simp [workerStep]
      omega

/-- C1 witness: with a registry holding one command whose function raises,
the worker converts the raise to an error text and an unknown name to the
unknown-command text. -/
theorem c1_worker_witness :
    workerBody [("boom", ⟨fun _ => .error "kaputt", none⟩)] "nope" [] =
      "Unbekanntes Kommando: " ++ "nope" ∧
    workerBody [("boom", ⟨fun _ => .error "kaputt", none⟩)] "boom" [] =
      "Fehler bei " ++ "boom" ++ ": " ++ "kaputt" :=
  ⟨(c1_worker_one_result_per_task [("boom", ⟨fun _ => .error "kaputt", none⟩)] 0 "nope" [] []).2.2.1
      (by rfl),
   (c1_worker_one_result_per_task [("boom", ⟨fun _ => .error "kaputt", none⟩)] 0 "boom" [] []).2.2.2.1
      ⟨fun _ => .error "kaputt", none⟩ "kaputt" (by rfl) (by rfl)⟩

/-! ### Alias expansion: cap behaviour (C8) -/

/-- The stop condition of the expansion loop: no tokens, or the first token
is not an alias. -/
def aliasStop (aliases : List (String × String)) (r : String) : Prop :=
  splitTokens r = [] ∨
    ∃ hd tl, splitTokens r = hd :: tl ∧ dictGet aliases hd = none

theorem expandLoopC_lt_stop (aliases : List (String × String)) :
    ∀ (f : Nat) (l : String), (expandLoopC aliases f l).2 < f →
    aliasStop aliases (expandLoopC aliases f l).1 := by
  intro f
  induction f with
  | zero => intro l h; omega
  | succ k ih =>
    intro l h
    unfold expandLoopC at h ⊢
    cases hs : splitTokens l with
    | nil =>
      simp only [hs] at h ⊢
      exact Or.inl hs
    | cons first rest =>
      simp only [hs] at h ⊢
      cases hg : dictGet aliases first with
      | none =>
        simp only [hg] at h ⊢
        exact Or.inr ⟨first, rest, hs, hg⟩
      | some expansion =>
        simp only [hg] at h ⊢
        exact ih _ (by omega)

theorem aliasStop_fixed (aliases : List (String × String)) (r : String)
    (h : aliasStop aliases r) : expandAliasesLine aliases r = r := by
  unfold expandAliasesLine expandAliasesLineC
  split
  · rfl
  · unfold expandLoopC
    rcases h with h1 | ⟨hd, tl, h2, h3⟩
    · rw [h1]
    · simp only [h2, h3]

/-- C8 (counterexample): with the cyclic alias table `a -> b, b -> a`,
expanding the line `a` performs the full 5 capped expansions and returns `b`;
re-expanding that maximally-expanded line yields `a`, not `b`, so expansion
at the cap is not idempotent. -/
theorem c8_counterexample :
    expandAliasesLineC [("a", "b"), ("b", "a")] "a" = ("b", 5) ∧
    expandAliasesLine [("a", "b"), ("b", "a")]
      (expandAliasesLine [("a", "b"), ("b", "a")] "a") = "a" ∧
    "a" ≠ "b" :=
  ⟨rfl, rfl, by decide⟩

/-- C8 (amended): alias expansion is idempotent whenever it stops before the
depth cap of 5 (the expanded line's first token is then no longer an alias);
a line that consumes the full cap may still start with an alias, and
re-expanding it can change it again (see the counterexample). -/
theorem c8_expansion_idempotent_below_cap (aliases : List (String × String))
    (line r : String) (n : Nat)
    (h : expandAliasesLineC aliases line = (r, n)) (hn : n < 5) :
    expandAliasesLine aliases r = r := by
  unfold expandAliasesLineC at h
  split at h
  · next hblank =>
    rw [Prod.mk.injEq] at h
    obtain ⟨h1, _⟩ := h
    subst h1
    unfold expandAliasesLine expandAliasesLineC
    rw [if_pos hblank]
  · have hlt : (expandLoopC aliases 5 line).2 < 5 := by rw [h]; exact hn
    have hstop := expandLoopC_lt_stop aliases 5 line hlt
    rw [h] at hstop
    exact aliasStop_fixed aliases r hstop

/-- C8 witness: a one-step alias expansion (`x -> echo hi`) stops below the
cap and is idempotent. -/
theorem c8_idempotent_witness :
    expandAliasesLine [("x", "echo hi")] "echo hi" = "echo hi" :=
  c8_expansion_idempotent_below_cap [("x", "echo hi")] "x" "echo hi" 1 (by rfl) (by decide)

/-- C9 (counterexample): the chain-composed batch path enqueues its chained
result without an expansion pass.  In a session whose environment maps
`X -> $abc` and `abc -> xyz`, the batch line `!mt upper get X` enqueues the
mapping `{"str": "$abc"}` even though variable expansion would have produced
`{"str": "xyz"}`; the claim that every enqueued mapping has had expansion
applied is therefore false. -/
theorem c9_counterexample :
    handleInput reg0 w0
        { env := [("X", "$abc"), ("abc", "xyz")], cwd := "/root", aliases := [],
          debugSuppressed := false } "!mt upper get X" =
      .ok ({ env := [("X", "$abc"), ("abc", "xyz")], cwd := "/root", aliases := [],
              debugSuppressed := false },
        [Effect.debugMsg "Enqueue: upper $abc",
         Effect.enqueue "upper" [("str", "$abc")],
         Effect.debugMsg "Added 1 tasks (multithread)",
         Effect.resultRead (some 10)]) ∧
    expandEnvInArgs [("X", "$abc"), ("abc", "xyz")] [("str", "$abc")] = [("str", "xyz")] ∧
    [("str", "$abc")] ≠ ([("str", "xyz")] : Args) :=
  ⟨by rfl, by rfl, by decide⟩

/-- C9 (amended): variable expansion is applied to the argument mapping on
the two plain enqueue paths — single-command dispatch and plain batch
subcommands — but the chain-composed batch path enqueues `{"str": value}`
with the chained value as-is, without an expansion pass. -/
theorem c9_expansion_before_enqueue :
    (∀ (reg : Registry) (w : World) (sess : Session) (dbgEff : List Effect)
        (line command : String) (parts : List String) (sess1 sess2 : Session),
      evaluateComposedChain reg w sess command parts line = .ok (sess1, none) →
      runBuiltin reg w sess1 command (buildArgsFromParts parts line) = .ok (sess2, none) →
      mainBranch reg w sess dbgEff line command parts =
        .ok (sess2, dbgEff ++ dbgIf sess2 ("Enqueue: " ++ line) ++
          [Effect.enqueue command (expandEnvInArgs sess2.env (buildArgsFromParts parts line)),
           Effect.resultRead none])) ∧
    (∀ (reg : Registry) (w : World) (sess : Session) (sub sp0 : String)
        (spRest : List String) (sess1 sess2 : Session),
      splitTokens sub = sp0 :: spRest →
      ¬ (sp0 = "!pwsh" ∨ sp0 = "!cmd") →
      evaluateInnerChain reg w sess (sp0 :: spRest) sub = (sess1, none) →
      runBuiltin reg w sess1 sp0 (buildArgsFromParts (sp0 :: spRest) sub) = .ok (sess2, none) →
      mtProcessSub reg w sess none sub =
        .ok (sess2, dbgIf sess2 ("Enqueue: " ++ sub) ++
          [Effect.enqueue sp0 (expandEnvInArgs sess2.env (buildArgsFromParts (sp0 :: spRest) sub))],
          1)) ∧
    (∀ (reg : Registry) (w : World) (sess : Session) (sub sp0 : String)
        (spRest : List String) (sess1 : Session) (v : String),
      splitTokens sub = sp0 :: spRest →
      ¬ (sp0 = "!pwsh" ∨ sp0 = "!cmd") →
      evaluateInnerChain reg w sess (sp0 :: spRest) sub = (sess1, some v) →
      mtProcessSub reg w sess none sub =
        .ok (sess1, dbgIf sess1 ("Enqueue: " ++ sp0 ++ " " ++ v) ++
          [Effect.enqueue sp0 [("str", v)]], 1)) := by
  refine ⟨?_, ?_, ?_⟩
  · intro reg w sess dbgEff line command parts sess1 sess2 hchain hbuiltin
    unfold mainBranch
    rw [hchain]
    dsimp only
    rw [hbuiltin]
  · intro reg w sess sub sp0 spRest sess1 sess2 hsplit hshell hinner hbuiltin
    unfold mtProcessSub
    rw [hsplit]
    dsimp only
    rw [if_neg hshell]
    dsimp only
    rw [hinner]
    dsimp only
    rw [hbuiltin]
  · intro reg w sess sub sp0 spRest sess1 v hsplit hshell hinner
    unfold mtProcessSub
    rw [hsplit]
    dsimp only
    rw [if_neg hshell]
    dsimp only
    rw [hinner]

/-- C9 witness: the plain batch subcommand `reverse $Z` (no chain, not a
builtin) is enqueued with `$Z` already replaced by the environment value
`42`. -/
theorem c9_expansion_witness :
    mtProcessSub reg0 w0
        { env := [("Z", "42")], cwd := "/root", aliases := [], debugSuppressed := false }
        none "reverse $Z" =
      .ok ({ env := [("Z", "42")], cwd := "/root", aliases := [], debugSuppressed := false },
        [Effect.debugMsg "Enqueue: reverse $Z",
         Effect.enqueue "reverse" [("str", "42")]], 1) :=
  c9_expansion_before_enqueue.2.1 reg0 w0
    { env := [("Z", "42")], cwd := "/root", aliases := [], debugSuppressed := false }
    "reverse $Z" "reverse" ["$Z"] _ _ (by rfl) (by decide) (by rfl) (by rfl)

/-- C10: `handle_input`'s `!cmd` branch calls `shell_executor.run_cmd`, but
`modules/shell_executor.py` defines only `run_cmd_stream` (plus
`run_pwsh_stream` and the private stream helpers), so every `!cmd` line with
a non-empty command string raises an uncaught `AttributeError`: the external
command never runs and no failure text is reported. -/
theorem c10_cmd_attribute_error :
    "run_cmd" ∉ shellExecutorDefs ∧
    (∀ (reg : Registry) (w : World) (sess : Session) (line : String),
      pyStrip line ≠ "" →
      pyLower (pyStrip (expandAliasesLine sess.aliases line)) ∉
        ["!suppressdebug", "!suppress-debug", "!resumedebug", "!enabledebug", "!unsuppressdebug"] →
      (splitTokens (expandAliasesLine sess.aliases line)).head? = some "!cmd" →
      pyStrip (strDrop (expandAliasesLine sess.aliases line) 4) ≠ "" →
      handleInput reg w sess line =
        .error "AttributeError: module modules.shell_executor has no attribute run_cmd") := by
  refine ⟨by decide, ?_⟩
  intro reg w sess line hblank htoggle hhead hrest
  unfold handleInput
  rw [if_neg hblank]
  dsimp only
  unfold afterAlias
  rw [if_neg (by simp at htoggle; tauto)]
  rw [if_neg (by simp at htoggle; tauto)]
  cases hsp : splitTokens (expandAliasesLine sess.aliases line) with
  | nil => rw [hsp] at hhead; exact absurd hhead (by simp)
  | cons command tail =>
    rw [hsp] at hhead
    simp only [List.head?_cons, Option.some.injEq] at hhead
    subst hhead
    dsimp only
    rw [if_neg (by decide), if_pos rfl]
    unfold cmdBranch
    dsimp only
    rw [show ("!cmd").length = 4 from rfl]
    rw [if_neg hrest]
    rw [if_neg (by decide)]

/-- C10 witness: the concrete line `!cmd dir` raises the `AttributeError`. -/
theorem c10_cmd_attribute_error_witness :
    handleInput reg0 w0 sess0 "!cmd dir" =
      .error "AttributeError: module modules.shell_executor has no attribute run_cmd" :=
  c10_cmd_attribute_error.2 reg0 w0 sess0 "!cmd dir" (by decide) (by decide) (by rfl) (by decide)

/-! ### Container codec: big-endian length field round-trip -/

theorem natToBytesBE_length (k n : Nat) : (natToBytesBE k n).length = k := by
  induction k generalizing n with
  | zero => rfl
  | succ j ih => simp [natToBytesBE, ih]

theorem bytesToNatBE_append_single (xs : List Nat) (b : Nat) :
    bytesToNatBE (xs ++ [b]) = bytesToNatBE xs * 256 + b := by
  unfold bytesToNatBE
  rw [List.foldl_append]
  rfl

theorem take_of_length_eq {xs ys : List Nat} {k : Nat} (h : xs.length = k) :
    (xs ++ ys).take k = xs := by
  subst h
  exact List.take_left xs ys

theorem drop_of_length_eq {xs ys : List Nat} {k : Nat} (h : xs.length = k) :
    (xs ++ ys).drop k = ys := by
  subst h
  exact List.drop_left xs ys

theorem bytesToNatBE_natToBytesBE (k n : Nat) :
    bytesToNatBE (natToBytesBE k n) = n % 256 ^ k := by
  induction k generalizing n with
  | zero => simp [natToBytesBE, bytesToNatBE, Nat.mod_one]
  | succ j ih =>
    unfold natToBytesBE
    rw [bytesToNatBE_append_single, ih]
    have h1 : 256 ^ (j + 1) = 256 * 256 ^ j := by ring
    rw [h1, Nat.mod_mul]
    ring

theorem bytesToNatBE_roundtrip (k n : Nat) (h : n < 256 ^ k) :
    bytesToNatBE (natToBytesBE k n) = n := by
  rw [bytesToNatBE_natToBytesBE]
  exact Nat.mod_eq_of_lt h

/-- C3: decoding a container produced by the encoder yields decompressed
payload bytes exactly equal to the original source bytes, for every non-empty
payload (given the gzip and JSON codecs invert, and the manifest fits the
8-byte length field, as `int.to_bytes(8)` requires). -/
theorem c3_container_roundtrip {M : Type} (jparse : List Nat → Option M)
    (compress : List Nat → List Nat) (decompress : List Nat → Option (List Nat))
    (hgz : ∀ b, decompress (compress b) = some b)
    (manifest : List Nat) (mObj : M) (hj : jparse manifest = some mObj)
    (hlen : manifest.length < 256 ^ 8) (payload : List Nat) (_hp : payload ≠ []) :
    decodeLE jparse decompress (encodeLE compress manifest payload) =
      .ok (mObj, payload, utf8Lossy payload) := by
  have hassoc : encodeLE compress manifest payload =
      leMagic ++ (natToBytesBE 8 manifest.length ++ (manifest ++ compress payload)) := by
    unfold encodeLE
    simp [List.append_assoc]
  have htake7 : (encodeLE compress manifest payload).take 7 = leMagic := by
    rw [hassoc]
    exact take_of_length_eq rfl
  have hdrop7 : (encodeLE compress manifest payload).drop 7 =
      natToBytesBE 8 manifest.length ++ (manifest ++ compress payload) := by
    rw [hassoc]
    exact drop_of_length_eq rfl
  have hlenfield : manifestLenOf (encodeLE compress manifest payload) = manifest.length := by
    unfold manifestLenOf
    rw [hdrop7]
    rw [take_of_length_eq (natToBytesBE_length 8 manifest.length)]
    exact bytesToNatBE_roundtrip 8 manifest.length hlen
  have hdrop8 : ((encodeLE compress manifest payload).drop 7).drop 8 =
      manifest ++ compress payload := by
    rw [hdrop7]
    exact drop_of_length_eq (natToBytesBE_length 8 manifest.length)
  have hmanifest : manifestBytesOf (encodeLE compress manifest payload) = manifest := by
    unfold manifestBytesOf
    rw [hdrop8, hlenfield]
    exact take_of_length_eq rfl
  have hpayload : payloadBytesOf (encodeLE compress manifest payload) = compress payload := by
    unfold payloadBytesOf
    rw [hdrop8, hlenfield]
    exact drop_of_length_eq rfl
  unfold decodeLE
  rw [if_neg (by rw [htake7]; exact fun hne => hne rfl)]
  rw [hmanifest, hj]
  rw [hpayload, hgz]

/-- C3 witness: a concrete container (identity compression, constant-parse
manifest, payload `hi`) decodes back to its payload bytes. -/
theorem c3_container_roundtrip_witness :
    decodeLE (fun b => if b = [110] then some 0 else none) some
        (encodeLE id [110] [104, 105]) = .ok ((0 : Nat), [104, 105], utf8Lossy [104, 105]) :=
  c3_container_roundtrip (fun b => if b = [110] then some 0 else none) id some
    (fun _ => rfl) [110] 0 (by decide) (by decide) [104, 105] (by decide)

/-- C7: container decoding fails exactly when the 7-byte magic does not
match, or the length-prefixed manifest does not parse, or the remaining
payload does not decompress; once those three checks pass the decode
succeeds, the final lossy UTF-8 text decode being a total function. -/
theorem c7_decode_failure_conditions {M : Type} (jparse : List Nat → Option M)
    (decompress : List Nat → Option (List Nat)) (file : List Nat) :
    (∃ r, decodeLE jparse decompress file = .ok r) ↔
      (file.take 7 = leMagic ∧ (jparse (manifestBytesOf file)).isSome ∧
        (decompress (payloadBytesOf file)).isSome) := by
  unfold decodeLE
  constructor
  · intro ⟨r, hr⟩
    split at hr
    · exact absurd hr (by simp)
    · next hmagic =>
      refine ⟨by simpa using hmagic, ?_, ?_⟩
      · cases hj : jparse (manifestBytesOf file) with
        | none => rw [hj] at hr; exact absurd hr (by simp)
        | some m => simp
      · cases hj : jparse (manifestBytesOf file) with
        | none => rw [hj] at hr; exact absurd hr (by simp)
        | some m =>
          rw [hj] at hr
          cases hd : decompress (payloadBytesOf file) with
          | none => rw [hd] at hr; exact absurd hr (by simp)
          | some sb => simp
  · intro ⟨hmagic, hj, hd⟩
    rw [if_neg (by rw [hmagic]; exact fun hne => hne rfl)]
    obtain ⟨m, hm⟩ := Option.isSome_iff_exists.mp hj
    obtain ⟨sb, hsb⟩ := Option.isSome_iff_exists.mp hd
    rw [hm, hsb]
    exact ⟨_, rfl⟩

end LUW
